import Mathlib

/-!
# Verification of the retail forecasting core of `Dashboard.py`

Shallow embedding of the `RetailDataProcessor` and `ForecastingEngine`
classes of `src/Dashboard.py`.  Dates are day numbers (days since
1970-01-01, the unit in which `pandas` timestamps differ by one calendar
day); monetary and metric quantities are exact rationals (`ℚ`), standing
for the Python floats: every algebraic identity proved over `ℚ` is the
exact-arithmetic statement of the corresponding floating-point identity.
Fallible steps return `Except`/`Option`.
-/

namespace Budgy

-- Batteries marks the `Rat` field operations irreducible, which blocks
-- elaborator evaluation of concrete rational arithmetic; the proofs below
-- evaluate small concrete instances, so restore default reducibility
-- locally to this file.
attribute [local semireducible] Rat.add Rat.mul Rat.inv Rat.sub

/-! ## Calendar functions

Embeddings of the `pandas` datetime accessors (`dt.year`, `dt.quarter`,
`dt.month`, `dt.isocalendar().week`, `dt.weekday`) used by `load_data`
(lines 53-57) and `generate_forecast` (lines 110-111).  They follow the
standard proleptic-Gregorian civil-calendar conversion (Howard Hinnant's
`civil_from_days` / `days_from_civil`, using floor division throughout),
and the ISO-8601 Thursday rule for the week number. -/

/-- Year, month and day of a day number (days since 1970-01-01). -/
def civilFromDays (z : ℤ) : ℤ × ℤ × ℤ :=
  let z' := z + 719468
  let era := z'.fdiv 146097
  let doe := z' - era * 146097
  let yoe := (doe - doe.fdiv 1460 + doe.fdiv 36524 - doe.fdiv 146096).fdiv 365
  let y := yoe + era * 400
  let doy := doe - (365 * yoe + yoe.fdiv 4 - yoe.fdiv 100)
  let mp := (5 * doy + 2).fdiv 153
  let d := doy - (153 * mp + 2).fdiv 5 + 1
  let m := if mp < 10 then mp + 3 else mp - 9
  (if m ≤ 2 then y + 1 else y, m, d)

/-- Day number of a civil date (inverse of `civilFromDays`). -/
def daysFromCivil (y m d : ℤ) : ℤ :=
  let y' := if m ≤ 2 then y - 1 else y
  let era := y'.fdiv 400
  let yoe := y' - era * 400
  let mp := if 2 < m then m - 3 else m + 9
  let doy := (153 * mp + 2).fdiv 5 + d - 1
  let doe := yoe * 365 + yoe.fdiv 4 - yoe.fdiv 100 + doy
  era * 146097 + doe - 719468

/-- `dt.year`. -/
def yearOf (z : ℤ) : ℤ := (civilFromDays z).1

/-- `dt.month`. -/
def monthOf (z : ℤ) : ℤ := (civilFromDays z).2.1

/-- `dt.quarter`. -/
def quarterOf (z : ℤ) : ℤ := (monthOf z - 1).fdiv 3 + 1

/-- `dt.weekday`: Monday = 0 .. Sunday = 6 (1970-01-01 was a Thursday). -/
def pyWeekday (z : ℤ) : ℤ := (z + 3).emod 7

/-- `dt.isocalendar().week`: ISO-8601 week number via the Thursday rule
(the ISO week of a date is the week of its Thursday, counted from the
January 1st of that Thursday's year). -/
def isoWeek (z : ℤ) : ℤ :=
  let thursday := z + (3 - pyWeekday z)
  let jan1 := daysFromCivil (yearOf thursday) 1 1
  (thursday - jan1).fdiv 7 + 1

/-! ## Percentage parsing

Embedding of the percentage conversion of `load_data` (lines 47-50):
`df[col].str.rstrip('%').astype('float') / 100`.  Python's `str.rstrip('%')`
removes ALL trailing `'%'` characters (it strips a character set, not a
single suffix), and removes nothing when no `'%'` is present.  `astype
('float')` applies Python float conversion to the remaining text; we embed
its decimal core (optional sign, digits with at most one decimal point, an
optional decimal exponent), leaving out the `inf`/`nan` spellings,
surrounding whitespace and digit-group underscores, which no claim
exercises. -/

/-- Value of a decimal digit, `none` on any other character. -/
def digitVal (c : Char) : Option ℕ :=
  if '0' ≤ c ∧ c ≤ '9' then some (c.toNat - '0'.toNat) else none

/-- Consume leading digits, returning their value, their count and the rest. -/
def takeDigits : List Char → ℕ → ℕ → ℕ × ℕ × List Char
  | [], v, k => (v, k, [])
  | c :: cs, v, k =>
    match digitVal c with
    | some d => takeDigits cs (10 * v + d) (k + 1)
    | none => (v, k, c :: cs)

/-- Parse an unsigned decimal mantissa: `digits`, `digits.digits?` or
`.digits`, requiring at least one digit overall. -/
def parseMantissa (cs : List Char) : Option (ℚ × List Char) :=
  let (ip, ik, r1) := takeDigits cs 0 0
  match r1 with
  | '.' :: r2 =>
    let (fp, fk, r3) := takeDigits r2 0 0
    if ik = 0 ∧ fk = 0 then none
    else some ((ip : ℚ) + (fp : ℚ) / (10 : ℚ) ^ fk, r3)
  | _ => if ik = 0 then none else some ((ip : ℚ), r1)

/-- Parse an optional decimal exponent part `e`/`E` `[+-]` `digits`. -/
def parseExpPart (cs : List Char) : Option (ℤ × List Char) :=
  match cs with
  | 'e' :: r | 'E' :: r =>
    let (neg, r1) := match r with
      | '-' :: r2 => (true, r2)
      | '+' :: r2 => (false, r2)
      | _ => (false, r)
    let (v, k, r2) := takeDigits r1 0 0
    if k = 0 then none else some (if neg then -(v : ℤ) else (v : ℤ), r2)
  | _ => some (0, cs)

/-- Python `float(s)` on the decimal core: sign, mantissa, exponent,
nothing left over. -/
def parseFloat (s : String) : Option ℚ :=
  let (neg, cs) := match s.toList with
    | '-' :: r => (true, r)
    | '+' :: r => (false, r)
    | cs => (false, cs)
  match parseMantissa cs with
  | none => none
  | some (v, rest) =>
    match parseExpPart rest with
    | some (e, []) => some ((if neg then -v else v) * (10 : ℚ) ^ e)
    | _ => none

/-- Python `s.rstrip('%')`: drop every trailing `'%'` character. -/
def rstripPct (s : String) : String :=
  String.mk (s.toList.reverse.dropWhile (· = '%')).reverse

/-- One cell of `df[col].str.rstrip('%').astype('float') / 100`. -/
def pctConvert (s : String) : Option ℚ :=
  (parseFloat (rstripPct s)).map (fun q => q / 100)

/-! ## Data model

`RetailDataProcessor.load_data` (lines 18-59) reads the CSV, renames the
Italian columns to the English model, converts the twelve
percentage-formatted columns, and appends the derived calendar columns.

The twelve percentage columns, in the canonical CSV column order in which
the conversion loop of lines 48-50 visits them, are
`margin, avg_discount, margin_cat_1, discount_cat_1, …, margin_cat_5,
discount_cat_5`; a row holds them in the list `pct` in that order, each
cell either still raw CSV text or already converted (the loop converts one
column at a time, so a failed load leaves a mixed table). -/

/-- A percentage-column cell: raw CSV text, or the converted fraction. -/
inductive Cell where
  | raw (s : String)
  | val (q : ℚ)
deriving DecidableEq

/-- One row of the raw CSV (column names as in the Italian source file;
the date column `Data` is held already parsed to a day number, as
`pd.read_csv(file, parse_dates=['Data'])` parses it before any step
modelled here).  `incasso_cats`/`pezzi_cats` hold the five numeric
per-category columns; `pctRaw` holds the twelve percentage-formatted
columns in canonical CSV order. -/
structure RawRow where
  data : ℤ
  incasso_totale : ℚ
  n_scontrini : ℚ
  pezzi_per_scontrino : ℚ
  presenze : ℚ
  pezzi_venduti : ℚ
  incasso_cats : List ℚ
  pezzi_cats : List ℚ
  pctRaw : List String
deriving DecidableEq

/-- One row of the processed table: the renamed columns (line 45), the
percentage cells, and the calendar columns of lines 53-57. -/
structure PRow where
  date : ℤ
  total_sales : ℚ
  num_receipts : ℚ
  items_per_receipt : ℚ
  visitors : ℚ
  items_sold : ℚ
  sales_cats : List ℚ
  items_cats : List ℚ
  pct : List Cell
  year : ℤ
  quarter : ℤ
  month : ℤ
  week : ℤ
  weekday : ℤ
deriving DecidableEq

/-- The column renaming of lines 24-45 plus the derived calendar columns
of lines 53-57.  (The source appends the calendar columns only after the
percentage conversion succeeds; as they are pure functions of the date
column, which no conversion step reads or writes, attaching them at rename
time changes nothing any later step observes.) -/
def renameRow (r : RawRow) : PRow :=
  { date := r.data
    total_sales := r.incasso_totale
    num_receipts := r.n_scontrini
    items_per_receipt := r.pezzi_per_scontrino
    visitors := r.presenze
    items_sold := r.pezzi_venduti
    sales_cats := r.incasso_cats
    items_cats := r.pezzi_cats
    pct := r.pctRaw.map Cell.raw
    year := yearOf r.data
    quarter := quarterOf r.data
    month := monthOf r.data
    week := isoWeek r.data
    weekday := pyWeekday r.data }

/-- Convert the `i`-th percentage cell of one row (a cell already
converted is left alone; `rename` only produces raw cells). -/
def convCellAt (i : ℕ) (r : PRow) : Option PRow :=
  match r.pct.getD i (Cell.val 0) with
  | Cell.raw s => (pctConvert s).map (fun q => { r with pct := r.pct.set i (Cell.val q) })
  | Cell.val _ => some r

/-- `df[col].str.rstrip('%').astype('float') / 100` for one column: pandas
converts the whole column or raises, leaving the column untouched on
failure. -/
def convCol (i : ℕ) : List PRow → Option (List PRow)
  | [] => some []
  | r :: rs =>
    match convCellAt i r with
    | some r2 => (convCol i rs).map (fun t => r2 :: t)
    | none => none

/-- The conversion loop of lines 49-50: one column after another, in CSV
column order; the first failing column aborts the loop, keeping the table
as converted so far (earlier columns converted, the rest raw).  Returns
the final table and whether every column succeeded. -/
def runConv : List ℕ → List PRow → List PRow × Bool
  | [], t => (t, true)
  | i :: is, t =>
    match convCol i t with
    | some t2 => runConv is t2
    | none => (t, false)

/-- The mutable state of the dashboard session: the two
`RetailDataProcessor` tables and configuration sets, and the
`ForecastingEngine`'s stored budget (`self.forecasts` is initialised to
`None` and never assigned by the source, so it is not modelled).
`special_dates` is a Python `set` of timestamps; a Python set iterates in
an unspecified, hash-determined order, which the list order models. -/
structure DashState where
  raw_data : Option (List RawRow)
  processed_data : Option (List PRow)
  closed_days : List ℤ
  special_dates : List ℤ
  yearly_budget : Option ℚ
deriving DecidableEq

/-- `load_data` (lines 18-59).  Mutations happen in source order: the raw
table is stored, `processed_data` is immediately overwritten with the
renamed table (line 45), then the percentage columns are converted one at
a time in place; a conversion failure (pandas `ValueError`, the spec's
ParsingError) leaves `processed_data` holding the partially converted
replacement.  Returns the new state and the result. -/
def load_data (s : DashState) (raw : List RawRow) : DashState × Except Unit (List PRow) :=
  let s1 := { s with raw_data := some raw }
  let conv := runConv (List.range 12) (raw.map renameRow)
  let s2 := { s1 with processed_data := some conv.1 }
  if conv.2 then (s2, Except.ok conv.1) else (s2, Except.error ())

/-- `set_closed_days` (lines 61-63): `self.closed_days = set(days)`. -/
def set_closed_days (s : DashState) (days : List ℤ) : DashState :=
  { s with closed_days := days.dedup }

/-- `set_special_dates` (lines 65-67):
`self.special_dates = set(pd.to_datetime(dates))`.  The stored list stands
for the set in its iteration order; Python's hash-determined order need
not relate to the argument's order, so theorems below never rely on the
stored order matching anything. -/
def set_special_dates (s : DashState) (dates : List ℤ) : DashState :=
  { s with special_dates := dates.dedup }

/-! ## Weight calculation and forecasting -/

/-- pandas `series.mean()`: sum over length.  pandas yields `NaN` on an
empty series; total division on `ℚ` yields `0` there, a corner noted
wherever a claim could touch it. -/
def mean (l : List ℚ) : ℚ := l.sum / l.length

/-- Insertion step for sorting (week, weekday) keys the way pandas sorts
groupby keys (ascending lexicographic). -/
def insertKey (x : ℤ × ℤ) : List (ℤ × ℤ) → List (ℤ × ℤ)
  | [] => [x]
  | y :: ys =>
    if x.1 < y.1 ∨ (x.1 = y.1 ∧ x.2 ≤ y.2) then x :: y :: ys else y :: insertKey x ys

/-- Sorted (week, weekday) key list. -/
def sortKeys (l : List (ℤ × ℤ)) : List (ℤ × ℤ) := l.foldr insertKey []

/-- Insertion step for sorting day numbers ascending. -/
def insertZ (x : ℤ) : List ℤ → List ℤ
  | [] => [x]
  | y :: ys => if x ≤ y then x :: y :: ys else y :: insertZ x ys

/-- Sorted day-number list. -/
def sortZ (l : List ℤ) : List ℤ := l.foldr insertZ []

/-- Line 72: `groupby(['week','weekday'])['total_sales'].mean()` over the
full processed table — each (ISO week, weekday) key present in the data
mapped to the mean `total_sales` of the rows sharing it, keys in pandas'
sorted order. -/
def weekly_patterns (pd : List PRow) : List ((ℤ × ℤ) × ℚ) :=
  ((sortKeys (pd.map (fun r => (r.week, r.weekday)))).dedup).map
    (fun k => (k, mean ((pd.filter
      (fun r => decide (r.week = k.1 ∧ r.weekday = k.2))).map PRow.total_sales)))

/-- Lines 75-77: the mean `total_sales` over the historical rows whose
date is a special date (pandas: `NaN` when none matches; `0` here by total
division). -/
def special_patterns (pd : List PRow) (sd : List ℤ) : ℚ :=
  mean ((pd.filter (fun r => decide (r.date ∈ sd))).map PRow.total_sales)

/-- `calculate_daily_weights` (lines 69-79). -/
def calculate_daily_weights (pd : List PRow) (sd : List ℤ) :
    List ((ℤ × ℤ) × ℚ) × ℚ :=
  (weekly_patterns pd, special_patterns pd sd)

/-- `scipy.stats.linregress(x, y)` specialised to `x = np.arange(len(y))`,
the only call shape in the source (lines 94-96): ordinary least squares
over exact arithmetic, `slope = (n·Σxy − Σx·Σy) / (n·Σx² − (Σx)²)`,
`intercept = ȳ − slope·x̄`.  The denominator vanishes exactly when `n ≤ 1`
(all x values coincide), where scipy produces no well-defined fit (NaN
slope, or a `ValueError`); that is modelled as `none`. -/
def linregress (ys : List ℚ) : Option (ℚ × ℚ) :=
  let n : ℚ := ys.length
  let sx : ℚ := ∑ i in Finset.range ys.length, (i : ℚ)
  let sxx : ℚ := ∑ i in Finset.range ys.length, ((i : ℚ) * (i : ℚ))
  let sy : ℚ := ys.sum
  let sxy : ℚ := ∑ i in Finset.range ys.length, (i : ℚ) * ys.getD i 0
  let den := n * sxx - sx * sx
  if den = 0 then none
  else
    let slope := (n * sxy - sx * sy) / den
    some (slope, (sy - slope * sx) / n)

/-- `series.max()` on the date column; only ever reached on nonempty data
(`linregress` fails first otherwise). -/
def dateMax : List ℤ → ℤ
  | [] => 0
  | x :: xs => xs.foldl max x

/-- Lines 90-91: `if base_year: data = data[data['year'] == base_year]` —
Python truthiness, so `None` and `0` both leave the table unfiltered. -/
def year_filter (pd : List PRow) (base_year : Option ℤ) : List PRow :=
  match base_year with
  | some y => if y ≠ 0 then pd.filter (fun r => decide (r.year = y)) else pd
  | none => pd

/-- One row of the candidate forecast (lines 103-111): date `start + k`,
base value `slope * (n + k) + intercept` where `n` is the size of the
trend-fitting subset, and the derived `week`/`weekday` columns. -/
structure FRow where
  date : ℤ
  sales_forecast : ℚ
  week : ℤ
  weekday : ℤ
deriving DecidableEq

/-- The `k`-th candidate forecast row. -/
def forecastRow (slope intercept : ℚ) (n : ℕ) (start : ℤ) (k : ℕ) : FRow :=
  { date := start + k
    sales_forecast := slope * ((n : ℚ) + (k : ℚ)) + intercept
    week := isoWeek (start + k)
    weekday := pyWeekday (start + k) }

/-- Lines 102-111: the 365-row candidate forecast table. -/
def forecastBase (slope intercept : ℚ) (n : ℕ) (start : ℤ) : List FRow :=
  (List.range 365).map (forecastRow slope intercept n start)

/-- Lines 114-116: for every `(week, weekday)` key of the weekly pattern,
multiply every forecast row matching that key by
`weight / weekly_pattern.mean()` (the divisor is the mean of the pattern
values, recomputed in each iteration from the unchanged pattern). -/
def apply_weekly_patterns (pat : List ((ℤ × ℤ) × ℚ)) (t : List FRow) : List FRow :=
  pat.foldl (fun acc kw =>
    acc.map (fun r =>
      if r.week = kw.1.1 ∧ r.weekday = kw.1.2 then
        { r with sales_forecast := r.sales_forecast * (kw.2 / mean (pat.map Prod.snd)) }
      else r)) t

/-- Lines 120-123, one special date: if the date lies in the forecast
horizon, multiply that day's value by
`special_pattern / forecast['sales_forecast'].mean()` — the divisor is the
mean of all 365 values of the table as it stands at this very step. -/
def apply_special_date (sp : ℚ) (t : List FRow) (d : ℤ) : List FRow :=
  if d ∈ t.map FRow.date then
    t.map (fun r =>
      if r.date = d then
        { r with sales_forecast := r.sales_forecast * (sp / mean (t.map FRow.sales_forecast)) }
      else r)
  else t

/-- Lines 118-123: the special-date loop — a sequential fold over
`self.special_dates` in the set's iteration order. -/
def apply_special_dates (sp : ℚ) (sd : List ℤ) (t : List FRow) : List FRow :=
  sd.foldl (apply_special_date sp) t

/-- Failure of forecasting: no table loaded (`processed_data is None`,
line 89 would raise), or a degenerate trend fit (`linregress` with fewer
than two observations, line 96). -/
inductive FErr where
  | noData
  | degenerateFit
deriving DecidableEq

/-- `generate_forecast` (lines 87-125) given the processed table and the
special-date set: select the (optionally year-filtered) subset, fit the
trend, take the weights from the FULL table (line 99 calls
`calculate_daily_weights`, which reads `self.processed_data`), start the
365-day horizon the day after the max date of the SELECTED subset
(line 104 reads `data['date'].max()` after the filter of line 91), then
apply weekly and special adjustments. -/
def generate_forecast_core (pd : List PRow) (sd : List ℤ) (base_year : Option ℤ) :
    Except FErr (List FRow) :=
  let data := year_filter pd base_year
  match linregress (data.map PRow.total_sales) with
  | none => Except.error FErr.degenerateFit
  | some si =>
    let pats := calculate_daily_weights pd sd
    let start := dateMax (data.map PRow.date) + 1
    Except.ok (apply_special_dates pats.2 sd
      (apply_weekly_patterns pats.1 (forecastBase si.1 si.2 data.length start)))

/-- `generate_forecast` on the session state. -/
def generate_forecast (s : DashState) (base_year : Option ℤ) : Except FErr (List FRow) :=
  match s.processed_data with
  | none => Except.error FErr.noData
  | some pd => generate_forecast_core pd s.special_dates base_year

/-- One row of `distribute_budget`'s output table. -/
structure BRow where
  date : ℤ
  sales_forecast : ℚ
  week : ℤ
  weekday : ℤ
  daily_budget : ℚ
  target_receipts : ℚ
  target_items : ℚ
deriving DecidableEq

/-- `distribute_budget` (lines 127-152): store the budget, regenerate the
forecast with no year filter, allocate
`daily_budget = yearly_budget * (sales_forecast / total_forecast)`, and
derive `target_receipts = daily_budget / mean(total_sales) * avg_receipts`
and `target_items = target_receipts * avg_items`, where the averages come
from `groupby('date').agg(mean).mean()` (per-date means, then the mean
over the distinct dates in pandas' sorted order; the margin average the
source also computes feeds nothing and is omitted).  Every division is
unguarded in the source — a zero denominator propagates NaN/inf values in
floating point and raises nothing; total division on `ℚ` likewise raises
nothing. -/
def distribute_budget (s : DashState) (yearly_budget : ℚ) :
    DashState × Except FErr (List BRow) :=
  let s1 := { s with yearly_budget := some yearly_budget }
  match s.processed_data with
  | none => (s1, Except.error FErr.noData)
  | some pd =>
    match generate_forecast_core pd s.special_dates none with
    | Except.error e => (s1, Except.error e)
    | Except.ok forecast =>
      let total_forecast := (forecast.map FRow.sales_forecast).sum
      let uds := (sortZ (pd.map PRow.date)).dedup
      let avg_receipts := mean (uds.map (fun d =>
        mean ((pd.filter (fun r => decide (r.date = d))).map PRow.num_receipts)))
      let avg_items := mean (uds.map (fun d =>
        mean ((pd.filter (fun r => decide (r.date = d))).map PRow.items_per_receipt)))
      let hist_mean := mean (pd.map PRow.total_sales)
      (s1, Except.ok (forecast.map (fun r =>
        let daily := yearly_budget * (r.sales_forecast / total_forecast)
        let tr := daily / hist_mean * avg_receipts
        { date := r.date
          sales_forecast := r.sales_forecast
          week := r.week
          weekday := r.weekday
          daily_budget := daily
          target_receipts := tr
          target_items := tr * avg_items })))

/-- Modelled from the spec (§4.2 step 6 with §9's design note): the same
forecast computation, but with the special-date fold running over the
special dates in chronological (ascending) order — the order the spec
prescribes as the contract.  Stated only to compare against the source's
fold, which runs in the set's iteration order. -/
def generate_forecast_chron (s : DashState) (base_year : Option ℤ) :
    Except FErr (List FRow) :=
  match s.processed_data with
  | none => Except.error FErr.noData
  | some pd =>
    let data := year_filter pd base_year
    match linregress (data.map PRow.total_sales) with
    | none => Except.error FErr.degenerateFit
    | some si =>
      let pats := calculate_daily_weights pd s.special_dates
      let start := dateMax (data.map PRow.date) + 1
      Except.ok (apply_special_dates pats.2 (sortZ s.special_dates)
        (apply_weekly_patterns pats.1 (forecastBase si.1 si.2 data.length start)))

/-- Residual sum of squares of the line `i ↦ a·i + b` against the series
`ys` indexed by position: the objective ordinary least squares
minimises. -/
def sse (ys : List ℚ) (a b : ℚ) : ℚ :=
  ∑ i in Finset.range ys.length, (ys.getD i 0 - (a * (i : ℚ) + b)) ^ 2

/-! ## The result table of `distribute_budget` in closed form -/

/-- The output row `distribute_budget` derives from one forecast row. -/
def budgetRow (pd : List PRow) (total : ℚ) (b : ℚ) (r : FRow) : BRow :=
  let daily := b * (r.sales_forecast / total)
  let tr := daily / mean (pd.map PRow.total_sales)
    * mean (((sortZ (pd.map PRow.date)).dedup).map (fun d =>
        mean ((pd.filter (fun r2 => decide (r2.date = d))).map PRow.num_receipts)))
  { date := r.date
    sales_forecast := r.sales_forecast
    week := r.week
    weekday := r.weekday
    daily_budget := daily
    target_receipts := tr
    target_items := tr * mean (((sortZ (pd.map PRow.date)).dedup).map (fun d =>
        mean ((pd.filter (fun r2 => decide (r2.date = d))).map PRow.items_per_receipt))) }

/-! ## Concrete session states for the witnesses and counterexamples -/

/-- A processed row as `load_data` would produce it: calendar fields
derived from the date; fields no claim reads are zeroed. -/
def mkPRow (d : ℤ) (sales receipts ipr : ℚ) : PRow :=
  { date := d, total_sales := sales, num_receipts := receipts,
    items_per_receipt := ipr, visitors := 0, items_sold := 0,
    sales_cats := [], items_cats := [], pct := List.replicate 12 (Cell.val 0),
    year := yearOf d, quarter := quarterOf d, month := monthOf d,
    week := isoWeek d, weekday := pyWeekday d }

/-- Three consecutive days of constant sales 100 (1970-01-01 .. 03). -/
def wPd : List PRow := [mkPRow 0 100 10 2, mkPRow 1 100 20 2, mkPRow 2 100 30 2]

/-- Session state with `wPd` loaded, no closed days, no special dates. -/
def wSt : DashState :=
  { raw_data := none, processed_data := some wPd, closed_days := [],
    special_dates := [], yearly_budget := none }

/-- Whether an `Except` is a success. -/
def exceptOk {ε α : Type} : Except ε α → Bool
  | Except.ok _ => true
  | Except.error _ => false

/-- The payload of a successful `Except`, or the default. -/
def exceptGet {ε α : Type} (dflt : α) : Except ε α → α
  | Except.ok a => a
  | Except.error _ => dflt

/-- Two days of sales −1 and 1: the historical mean is zero. -/
def c6Pd : List PRow := [mkPRow 0 (-1) 10 2, mkPRow 1 1 20 2]

/-- Session state with `c6Pd` loaded. -/
def c6St : DashState :=
  { raw_data := none, processed_data := some c6Pd, closed_days := [],
    special_dates := [], yearly_budget := none }

/-- Two days in 1970 and two in 1971. -/
def c2Pd : List PRow :=
  [mkPRow 0 100 10 2, mkPRow 1 200 10 2, mkPRow 365 100 10 2, mkPRow 366 100 10 2]

/-- Session state with `c2Pd` loaded. -/
def c2St : DashState :=
  { raw_data := none, processed_data := some c2Pd, closed_days := [],
    special_dates := [], yearly_budget := none }

/-- One row in 1970 and one in 1971. -/
def c3Pd : List PRow := [mkPRow 0 100 10 2, mkPRow 365 200 10 2]

/-- Session state with `c3Pd` loaded. -/
def c3St : DashState :=
  { raw_data := none, processed_data := some c3Pd, closed_days := [],
    special_dates := [], yearly_budget := none }

/-- A raw CSV row with constant percentage text and the metrics no claim
reads zeroed. -/
def mkRawRow (d : ℤ) (sales : ℚ) : RawRow :=
  { data := d, incasso_totale := sales, n_scontrini := 10,
    pezzi_per_scontrino := 2, presenze := 0, pezzi_venduti := 0,
    incasso_cats := [], pezzi_cats := [], pctRaw := List.replicate 12 "10%" }

/-- The pristine session state. -/
def initSt : DashState :=
  { raw_data := none, processed_data := none, closed_days := [],
    special_dates := [], yearly_budget := none }

/-- Two raw rows sharing the date day 0. -/
def c8dupRaw : List RawRow := [mkRawRow 0 100, mkRawRow 0 200]

/-- Two raw rows on distinct dates. -/
def c8Raw : List RawRow := [mkRawRow 0 100, mkRawRow 1 200]

/-- One raw row whose fourth percentage cell is not numeric. -/
def c7Raw : List RawRow :=
  [{ data := 7, incasso_totale := 50, n_scontrini := 10,
     pezzi_per_scontrino := 2, presenze := 0, pezzi_venduti := 0,
     incasso_cats := [], pezzi_cats := [],
     pctRaw := ["10%", "20%", "1%", "abc", "1%", "1%", "1%", "1%", "1%", "1%", "1%", "1%"] }]

/-- A session state that already holds a processed table. -/
def c7St : DashState :=
  { raw_data := none, processed_data := some wPd, closed_days := [],
    special_dates := [], yearly_budget := none }

/-! ## Helper definitions for the parsing analysis -/

/-- Whether one percentage cell will convert. -/
def cellOk : Cell → Bool
  | Cell.raw s => (pctConvert s).isSome
  | Cell.val _ => true

/-- The cell of a row at a column index. -/
def cellAt (i : ℕ) (r : PRow) : Cell := r.pct.getD i (Cell.val 0)

/-- One raw row whose margin cell `"12.5"` has no percent sign. -/
def c5Raw : List RawRow :=
  [{ data := 0, incasso_totale := 100, n_scontrini := 10, pezzi_per_scontrino := 2,
     presenze := 0, pezzi_venduti := 0, incasso_cats := [], pezzi_cats := [],
     pctRaw := ["12.5", "10%", "10%", "10%", "10%", "10%", "10%", "10%", "10%", "10%", "10%", "10%"] }]

/-! ## Helper definitions for the special-date fold analysis -/

/-- The total `sales_forecast` carried on one date (on the duplicate-free
horizon, the value of that day's single row). -/
def salesAt (t : List FRow) (d : ℤ) : ℚ :=
  ((t.filter (fun r => decide (r.date = d))).map FRow.sales_forecast).sum

/-- Four historical rows: 1970-12-28 (day 361, ISO (53,0), sales 100),
1976-12-27/28/29 (days 2552-2554, ISO (53,0), (53,1), (53,2), sales 300,
200, 200).  Every (week, weekday) group mean is 200, so the weekly pass
is neutral, while day 361's sales of 100 differ from the overall level. -/
def c4Pd : List PRow :=
  [mkPRow 361 100 10 2, mkPRow 2552 300 10 2, mkPRow 2553 200 10 2, mkPRow 2554 200 10 2]

/-- The session state for C4.  `special_dates` holds the dates 1977-01-16
(day 2572), 1970-12-28 (day 361) and 1977-01-09 (day 2565) in the order
the Python sets iterate them (verified against CPython 3.11: the
dashboard's session set of `datetime.date` values yields exactly this
order under hash seed 0, and the engine's set of timestamps — whose
day-valued hashes collide into slot 0, so linear probing preserves
insertion order — keeps it): NOT chronological, day 2572 comes before
day 2565. -/
def c4St : DashState :=
  { raw_data := none, processed_data := some c4Pd, closed_days := [],
    special_dates := [2572, 361, 2565], yearly_budget := none }

/-- The C4 trend table: slope 20, intercept 170, four fitted rows,
horizon starting on day 2555. -/
def c4Base : List FRow := forecastBase 20 170 4 2555

/-! ## Spot checks of the embedding against observed Python behaviour

The calendar values below were read off Python's `datetime` (which the
pandas accessors follow), the parsing values off Python's `float` and
`str.rstrip`. -/

example : yearOf 0 = 1970 ∧ monthOf 0 = 1 ∧ quarterOf 0 = 1 ∧ isoWeek 0 = 1 ∧ pyWeekday 0 = 3 := by decide

example : yearOf 364 = 1970 ∧ monthOf 364 = 12 ∧ quarterOf 364 = 4 ∧ isoWeek 364 = 53 ∧ pyWeekday 364 = 3 := by decide

example : yearOf 365 = 1971 ∧ isoWeek 365 = 53 ∧ pyWeekday 365 = 4 := by decide

example : yearOf 400 = 1971 ∧ monthOf 400 = 2 ∧ isoWeek 400 = 5 ∧ pyWeekday 400 = 4 := by decide

example : yearOf 18628 = 2021 ∧ isoWeek 18628 = 53 ∧ pyWeekday 18628 = 4 := by decide

example : yearOf (-1) = 1969 ∧ monthOf (-1) = 12 ∧ quarterOf (-1) = 4 ∧ isoWeek (-1) = 1 ∧ pyWeekday (-1) = 2 := by decide

example : yearOf (-365) = 1969 ∧ monthOf (-365) = 1 ∧ isoWeek (-365) = 1 ∧ pyWeekday (-365) = 2 := by decide

example : yearOf 100 = 1970 ∧ monthOf 100 = 4 ∧ quarterOf 100 = 2 ∧ isoWeek 100 = 15 ∧ pyWeekday 100 = 5 := by decide

example : yearOf 361 = 1970 ∧ isoWeek 361 = 53 ∧ pyWeekday 361 = 0 := by decide

example : yearOf 2552 = 1976 ∧ isoWeek 2552 = 53 ∧ pyWeekday 2552 = 0 := by decide

example : isoWeek 2553 = 53 ∧ pyWeekday 2553 = 1 ∧ isoWeek 2554 = 53 ∧ pyWeekday 2554 = 2 := by decide

example : pctConvert "12.5%" = some (1/8) := by decide

example : pctConvert "12.5" = some (1/8) := by decide

example : pctConvert "12.5%%" = some (1/8) := by decide

example : pctConvert "abc" = none := by decide

example : pctConvert "-2.5e1%" = some (-1/4) := by decide

example : parseFloat "1.2.3" = none := by decide

example : parseFloat "" = none := by decide

example : parseFloat "%" = none := by decide

/-! ## General lemmas about the adjustment passes -/

/-- A fold whose step fixes every state is the identity. -/
theorem foldl_fix {β α : Type} (g : β → α → β) (l : List α)
    (h : ∀ b a, a ∈ l → g b a = b) (b : β) : l.foldl g b = b := by
  induction l generalizing b with
  | nil => rfl
  | cons x xs ih =>
    rw [List.foldl_cons, h b x (List.mem_cons_self x xs)]
    exact ih (fun b a ha => h b a (List.mem_cons_of_mem x ha)) b

/-- A fold whose every step preserves a projection of the state preserves
it overall. -/
theorem foldl_preserves {β α γ : Type} (g : β → α → β) (p : β → γ) (l : List α)
    (h : ∀ b a, a ∈ l → p (g b a) = p b) (b : β) : p (l.foldl g b) = p b := by
  induction l generalizing b with
  | nil => rfl
  | cons x xs ih =>
    rw [List.foldl_cons, ih (fun b a ha => h b a (List.mem_cons_of_mem x ha)),
      h b x (List.mem_cons_self x xs)]

/-- The weekly pass only rescales `sales_forecast`: the date column is
untouched. -/
theorem apply_weekly_patterns_map_date (pat : List ((ℤ × ℤ) × ℚ)) (t : List FRow) :
    (apply_weekly_patterns pat t).map FRow.date = t.map FRow.date := by
  refine foldl_preserves _ (fun u => u.map FRow.date) pat (fun b a _ => ?_) t
  dsimp only
  rw [List.map_map]
  refine List.map_congr_left (fun r _ => ?_)
  by_cases h : r.week = a.1.1 ∧ r.weekday = a.1.2 <;> simp [h]

/-- One special-date step leaves the date column untouched. -/
theorem apply_special_date_map_date (sp : ℚ) (t : List FRow) (d : ℤ) :
    (apply_special_date sp t d).map FRow.date = t.map FRow.date := by
  unfold apply_special_date
  by_cases h : d ∈ t.map FRow.date
  · rw [if_pos h, List.map_map]
    refine List.map_congr_left (fun r _ => ?_)
    by_cases h2 : r.date = d <;> simp [h2]
  · rw [if_neg h]

/-- The special-date pass leaves the date column untouched. -/
theorem apply_special_dates_map_date (sp : ℚ) (sd : List ℤ) (t : List FRow) :
    (apply_special_dates sp sd t).map FRow.date = t.map FRow.date :=
  foldl_preserves _ (fun u => u.map FRow.date) sd
    (fun b a _ => apply_special_date_map_date sp b a) t

/-- The date column of the candidate forecast table: 365 consecutive days
from `start`. -/
theorem forecastBase_map_date (sl ic : ℚ) (n : ℕ) (start : ℤ) :
    (forecastBase sl ic n start).map FRow.date
      = (List.range 365).map (fun (k : ℕ) => start + (k : ℤ)) := by
  unfold forecastBase forecastRow
  rw [List.map_map]
  exact List.map_congr_left (fun k _ => rfl)

/-- The sales column of the candidate forecast table. -/
theorem forecastBase_map_sales (sl ic : ℚ) (n : ℕ) (start : ℤ) :
    (forecastBase sl ic n start).map FRow.sales_forecast
      = (List.range 365).map (fun (k : ℕ) => sl * ((n : ℚ) + (k : ℚ)) + ic) := by
  unfold forecastBase forecastRow
  rw [List.map_map]
  exact List.map_congr_left (fun k _ => rfl)

/-- Sum of an affine function over `List.range`. -/
theorem sum_range_affine (m : ℕ) (a b c : ℚ) :
    ((List.range m).map (fun (k : ℕ) => a * (c + (k : ℚ)) + b)).sum
      = m * (a * c + b) + a * (m * (m - 1) / 2) := by
  induction m with
  | zero => simp
  | succ n ih =>
    rw [List.range_succ, List.map_append, List.sum_append, ih]
    simp only [List.map_cons, List.map_nil, List.sum_cons, List.sum_nil]
    push_cast
    ring

/-- When every weekly-pattern value equals the mean of the pattern values
and that mean is nonzero, every multiplier is `1` and the weekly pass is
the identity (the spec's "weekly adjustment neutrality"). -/
theorem apply_weekly_patterns_const (pat : List ((ℤ × ℤ) × ℚ)) (c : ℚ)
    (hm : mean (pat.map Prod.snd) = c) (hpat : ∀ kv ∈ pat, kv.2 = c)
    (hc : c ≠ 0) (t : List FRow) : apply_weekly_patterns pat t = t := by
  refine foldl_fix _ pat (fun b kv hkv => ?_) t
  have h1 : kv.2 / mean (pat.map Prod.snd) = 1 := by
    rw [hm, hpat kv hkv]; exact div_self hc
  have h2 : ∀ r : FRow,
      (if r.week = kv.1.1 ∧ r.weekday = kv.1.2 then
        { r with sales_forecast := r.sales_forecast * (kv.2 / mean (pat.map Prod.snd)) }
      else r) = r := by
    intro r
    by_cases h : r.week = kv.1.1 ∧ r.weekday = kv.1.2
    · rw [if_pos h, h1, mul_one]
    · rw [if_neg h]
  have := List.map_congr_left (fun r (_ : r ∈ b) => h2 r)
  simpa using this

/-! ## Lemmas about the trend fit -/

/-- Gauss sum over `Finset.range`, in `ℚ`. -/
theorem sum_range_cast (n : ℕ) :
    (∑ i in Finset.range n, (i : ℚ)) = n * (n - 1) / 2 := by
  induction n with
  | zero => simp
  | succ m ih =>
    rw [Finset.sum_range_succ, ih]
    push_cast
    ring

/-- Sum of squares over `Finset.range`, in `ℚ`. -/
theorem sum_range_sq_cast (n : ℕ) :
    (∑ i in Finset.range n, ((i : ℚ) * (i : ℚ))) = n * (n - 1) * (2 * n - 1) / 6 := by
  induction n with
  | zero => simp
  | succ m ih =>
    rw [Finset.sum_range_succ, ih]
    push_cast
    ring

/-- The OLS denominator `n·Σx² − (Σx)²` for `x = 0, …, n−1` is positive
whenever there are at least two observations. -/
theorem linregress_den_pos (n : ℕ) (h2 : 2 ≤ n) :
    0 < (n : ℚ) * (∑ i in Finset.range n, ((i : ℚ) * (i : ℚ)))
      - (∑ i in Finset.range n, (i : ℚ)) * (∑ i in Finset.range n, (i : ℚ)) := by
  rw [sum_range_cast, sum_range_sq_cast]
  have hn : (2 : ℚ) ≤ (n : ℚ) := by exact_mod_cast h2
  have key : (n : ℚ) * ((n : ℚ) * ((n : ℚ) - 1) * (2 * (n : ℚ) - 1) / 6)
      - (n : ℚ) * ((n : ℚ) - 1) / 2 * ((n : ℚ) * ((n : ℚ) - 1) / 2)
      = (n : ℚ) * (n : ℚ) * (((n : ℚ) - 1) * (((n : ℚ) + 1) / 12)) := by ring
  rw [key]
  have h1 : (0 : ℚ) < (n : ℚ) := by linarith
  have h3 : (0 : ℚ) < (n : ℚ) - 1 := by linarith
  have h4 : (0 : ℚ) < ((n : ℚ) + 1) / 12 := by positivity
  exact mul_pos (mul_pos h1 h1) (mul_pos h3 h4)

/-- With at least two observations the fit of `linregress` is defined. -/
theorem linregress_of_two_le (ys : List ℚ) (h2 : 2 ≤ ys.length) :
    ∃ si : ℚ × ℚ, linregress ys = some si := by
  have hden := linregress_den_pos ys.length h2
  unfold linregress
  rw [if_neg (ne_of_gt hden)]
  exact ⟨_, rfl⟩

/-- A list sum as a `Finset.range` sum of `getD`. -/
theorem sum_getD_eq (ys : List ℚ) :
    (∑ i in Finset.range ys.length, ys.getD i 0) = ys.sum := by
  induction ys with
  | nil => simp
  | cons y t ih =>
    rw [List.length_cons, Finset.sum_range_succ', List.sum_cons]
    simp only [List.getD_cons_succ, List.getD_cons_zero]
    rw [ih, add_comm]

/-- Pulling a constant factor out of a sum of mapped values. -/
theorem sum_map_mul_div (l : List FRow) (b T : ℚ) :
    (l.map (fun r => b * (r.sales_forecast / T))).sum
      = b * ((l.map FRow.sales_forecast).sum / T) := by
  induction l with
  | nil => simp
  | cons r t ih =>
    simp only [List.map_cons, List.sum_cons, ih]
    ring

/-- The parameters `linregress` returns minimise the residual sum of
squares: the fit really is ordinary least squares. -/
theorem linregress_ols (ys : List ℚ) (h2 : 2 ≤ ys.length) (sl ic : ℚ)
    (h : linregress ys = some (sl, ic)) (a b : ℚ) :
    sse ys sl ic ≤ sse ys a b := by
  have hden := linregress_den_pos ys.length h2
  have hn : (0 : ℚ) < (ys.length : ℚ) := by
    have : (2 : ℚ) ≤ (ys.length : ℚ) := by exact_mod_cast h2
    linarith
  unfold linregress at h
  rw [if_neg (ne_of_gt hden)] at h
  simp only [Option.some.injEq, Prod.mk.injEq] at h
  obtain ⟨hsl, hic⟩ := h
  rw [hsl] at hic
  have hicN : (ys.length : ℚ) * ic
      = ys.sum - sl * (∑ i in Finset.range ys.length, (i : ℚ)) := by
    rw [← hic]
    field_simp
  have hslden : sl * ((ys.length : ℚ) * (∑ i in Finset.range ys.length, ((i : ℚ) * (i : ℚ)))
        - (∑ i in Finset.range ys.length, (i : ℚ)) * (∑ i in Finset.range ys.length, (i : ℚ)))
      = (ys.length : ℚ) * (∑ i in Finset.range ys.length, (i : ℚ) * ys.getD i 0)
        - (∑ i in Finset.range ys.length, (i : ℚ)) * ys.sum := by
    rw [← hsl]
    field_simp
  have hR1 : (∑ i in Finset.range ys.length,
      (ys.getD i 0 - (sl * (i : ℚ) + ic))) = 0 := by
    have e1 : (∑ i in Finset.range ys.length, (ys.getD i 0 - (sl * (i : ℚ) + ic)))
        = ys.sum - sl * (∑ i in Finset.range ys.length, (i : ℚ))
          - (ys.length : ℚ) * ic := by
      rw [Finset.sum_sub_distrib, Finset.sum_add_distrib, ← Finset.mul_sum, sum_getD_eq,
        Finset.sum_const, Finset.card_range, nsmul_eq_mul]
      ring
    rw [e1, hicN]
    ring
  have hR2 : (∑ i in Finset.range ys.length,
      (i : ℚ) * (ys.getD i 0 - (sl * (i : ℚ) + ic))) = 0 := by
    have e2 : (∑ i in Finset.range ys.length,
        (i : ℚ) * (ys.getD i 0 - (sl * (i : ℚ) + ic)))
        = (∑ i in Finset.range ys.length, (i : ℚ) * ys.getD i 0)
          - sl * (∑ i in Finset.range ys.length, ((i : ℚ) * (i : ℚ)))
          - ic * (∑ i in Finset.range ys.length, (i : ℚ)) := by
      have p : ∀ i ∈ Finset.range ys.length,
          (i : ℚ) * (ys.getD i 0 - (sl * (i : ℚ) + ic))
            = (i : ℚ) * ys.getD i 0 - (sl * ((i : ℚ) * (i : ℚ)) + ic * (i : ℚ)) := by
        intro i _
        ring
      rw [Finset.sum_congr rfl p, Finset.sum_sub_distrib, Finset.sum_add_distrib,
        ← Finset.mul_sum, ← Finset.mul_sum]
      ring
    have key : ((∑ i in Finset.range ys.length, (i : ℚ) * ys.getD i 0)
          - sl * (∑ i in Finset.range ys.length, ((i : ℚ) * (i : ℚ)))
          - ic * (∑ i in Finset.range ys.length, (i : ℚ))) * (ys.length : ℚ)
        = ((ys.length : ℚ) * (∑ i in Finset.range ys.length, (i : ℚ) * ys.getD i 0)
            - (∑ i in Finset.range ys.length, (i : ℚ)) * ys.sum)
          - sl * ((ys.length : ℚ) * (∑ i in Finset.range ys.length, ((i : ℚ) * (i : ℚ)))
            - (∑ i in Finset.range ys.length, (i : ℚ)) * (∑ i in Finset.range ys.length, (i : ℚ))) := by
      have h3 : ((∑ i in Finset.range ys.length, (i : ℚ) * ys.getD i 0)
            - sl * (∑ i in Finset.range ys.length, ((i : ℚ) * (i : ℚ)))
            - ic * (∑ i in Finset.range ys.length, (i : ℚ))) * (ys.length : ℚ)
          = (∑ i in Finset.range ys.length, (i : ℚ) * ys.getD i 0) * (ys.length : ℚ)
            - sl * (∑ i in Finset.range ys.length, ((i : ℚ) * (i : ℚ))) * (ys.length : ℚ)
            - ((ys.length : ℚ) * ic) * (∑ i in Finset.range ys.length, (i : ℚ)) := by
        ring
      rw [h3, hicN]
      ring
    have key2 : ((∑ i in Finset.range ys.length, (i : ℚ) * ys.getD i 0)
          - sl * (∑ i in Finset.range ys.length, ((i : ℚ) * (i : ℚ)))
          - ic * (∑ i in Finset.range ys.length, (i : ℚ))) * (ys.length : ℚ) = 0 := by
      rw [key, ← hslden]
      ring
    rw [e2]
    rcases mul_eq_zero.mp key2 with h0 | h0
    · exact h0
    · exact absurd h0 (ne_of_gt hn)
  have keysum : sse ys a b = sse ys sl ic
      + 2 * (sl - a) * (∑ i in Finset.range ys.length,
          (i : ℚ) * (ys.getD i 0 - (sl * (i : ℚ) + ic)))
      + 2 * (ic - b) * (∑ i in Finset.range ys.length,
          (ys.getD i 0 - (sl * (i : ℚ) + ic)))
      + ∑ i in Finset.range ys.length, ((sl - a) * (i : ℚ) + (ic - b)) ^ 2 := by
    unfold sse
    rw [Finset.mul_sum, Finset.mul_sum, ← Finset.sum_add_distrib,
      ← Finset.sum_add_distrib, ← Finset.sum_add_distrib]
    refine Finset.sum_congr rfl (fun i _ => ?_)
    ring
  have hsq : 0 ≤ ∑ i in Finset.range ys.length, ((sl - a) * (i : ℚ) + (ic - b)) ^ 2 :=
    Finset.sum_nonneg (fun i _ => sq_nonneg _)
  rw [keysum, hR1, hR2]
  linarith

/-- `distribute_budget` in closed form, once the forecast is fixed. -/
theorem distribute_budget_eq (s : DashState) (pd : List PRow) (f : List FRow) (b : ℚ)
    (hpd : s.processed_data = some pd)
    (hcore : generate_forecast_core pd s.special_dates none = Except.ok f) :
    (distribute_budget s b).2
      = Except.ok (f.map (budgetRow pd ((f.map FRow.sales_forecast).sum) b)) := by
  obtain ⟨ra, pda, cd, sd, yb⟩ := s
  simp only at hpd hcore
  subst hpd
  unfold distribute_budget
  simp only [hcore]
  rfl

/-- `distribute_budget` stores the budget and otherwise leaves the state
unchanged apart from that field; in particular `processed_data` is
untouched. -/
theorem distribute_budget_state (s : DashState) (b : ℚ) :
    (distribute_budget s b).1.processed_data = s.processed_data := by
  rcases hs : s.processed_data with _ | pd
  · simp only [distribute_budget, hs]
  · rcases hc : generate_forecast_core pd s.special_dates none with e | f <;>
      simp only [distribute_budget, hs, hc]

/-- On `wSt` the forecast is the bare trend table: slope 0, intercept 100,
start day 3 — the weekly multipliers are all `100 / 100 = 1` (the spec's
"weekly adjustment neutrality") and there are no special dates. -/
theorem w_forecast_eq : generate_forecast wSt none = Except.ok (forecastBase 0 100 3 3) := by
  have hlin : linregress (wPd.map PRow.total_sales) = some (0, 100) := by decide
  have hneutral : apply_weekly_patterns (weekly_patterns wPd) (forecastBase 0 100 3 3)
      = forecastBase 0 100 3 3 := by
    refine apply_weekly_patterns_const _ 100 (by decide) (by decide) (by norm_num) _
  show generate_forecast_core wPd [] none = Except.ok (forecastBase 0 100 3 3)
  unfold generate_forecast_core
  simp only [year_filter, hlin]
  show Except.ok (apply_special_dates _ [] (apply_weekly_patterns (weekly_patterns wPd)
    (forecastBase 0 100 wPd.length (dateMax (wPd.map PRow.date) + 1)))) = _
  have hlen : wPd.length = 3 := by decide
  have hmax : dateMax (wPd.map PRow.date) + 1 = 3 := by decide
  rw [hlen, hmax, hneutral]
  rfl

/-- The forecast total on `wSt`: 365 rows of 100. -/
theorem w_sum : ((forecastBase 0 100 3 3).map FRow.sales_forecast).sum = 36500 := by
  rw [forecastBase_map_sales, sum_range_affine]
  norm_num

/-- Restating a forecast success at the engine level as one at the core
level. -/
theorem core_of_forecast (s : DashState) (pd : List PRow) (f : List FRow)
    (y : Option ℤ) (hpd : s.processed_data = some pd)
    (hf : generate_forecast s y = Except.ok f) :
    generate_forecast_core pd s.special_dates y = Except.ok f := by
  rw [← hf]
  unfold generate_forecast
  rw [hpd]

/-! ## Claim C1 -/

/-- C1: for every loaded dataset whose forecast total is nonzero and every
non-negative yearly budget, `distribute_budget` sets each row's
`daily_budget` to `yearlyBudget * sales_forecast / total` and the daily
budgets sum exactly to the yearly budget over exact arithmetic. -/
theorem claim1_budget_conservation (s : DashState) (pd : List PRow) (f : List FRow) (b : ℚ)
    (hpd : s.processed_data = some pd)
    (hf : generate_forecast s none = Except.ok f)
    (hT : (f.map FRow.sales_forecast).sum ≠ 0)
    (hb : 0 ≤ b) :
    ∃ g, (distribute_budget s b).2 = Except.ok g ∧
      g.map BRow.daily_budget
        = f.map (fun r => b * (r.sales_forecast / (f.map FRow.sales_forecast).sum)) ∧
      (g.map BRow.daily_budget).sum = b := by
  have hcore := core_of_forecast s pd f none hpd hf
  refine ⟨_, distribute_budget_eq s pd f b hpd hcore, ?_, ?_⟩
  · rw [List.map_map]
    exact List.map_congr_left (fun r _ => rfl)
  · rw [List.map_map]
    have e : f.map (BRow.daily_budget ∘ budgetRow pd ((f.map FRow.sales_forecast).sum) b)
        = f.map (fun r => b * (r.sales_forecast / (f.map FRow.sales_forecast).sum)) :=
      List.map_congr_left (fun r _ => rfl)
    rw [e, sum_map_mul_div, div_self hT, mul_one]

/-- Witness for C1 on the concrete state `wSt` with budget 36500. -/
theorem claim1_budget_conservation_witness :
    ∃ g, (distribute_budget wSt 36500).2 = Except.ok g ∧
      g.map BRow.daily_budget = (forecastBase 0 100 3 3).map
        (fun r => 36500 * (r.sales_forecast
          / ((forecastBase 0 100 3 3).map FRow.sales_forecast).sum)) ∧
      (g.map BRow.daily_budget).sum = 36500 :=
  claim1_budget_conservation wSt wPd (forecastBase 0 100 3 3) 36500 rfl w_forecast_eq
    (by rw [w_sum]; norm_num) (by norm_num)

/-! ## Claim C10 -/

/-- C10: with a nonzero historical mean and nonzero forecast total,
`distribute_budget 0` succeeds and yields all-zero `daily_budget`,
`target_receipts` and `target_items`. -/
theorem claim10_zero_budget (s : DashState) (pd : List PRow) (f : List FRow)
    (hpd : s.processed_data = some pd)
    (hf : generate_forecast s none = Except.ok f)
    (hT : (f.map FRow.sales_forecast).sum ≠ 0)
    (hm : mean (pd.map PRow.total_sales) ≠ 0) :
    ∃ g, (distribute_budget s 0).2 = Except.ok g ∧
      ∀ r ∈ g, r.daily_budget = 0 ∧ r.target_receipts = 0 ∧ r.target_items = 0 := by
  have hcore := core_of_forecast s pd f none hpd hf
  refine ⟨_, distribute_budget_eq s pd f 0 hpd hcore, ?_⟩
  intro r hr
  obtain ⟨r0, _, rfl⟩ := List.mem_map.mp hr
  refine ⟨?_, ?_, ?_⟩ <;> simp [budgetRow]

/-- Witness for C10 on the concrete state `wSt`. -/
theorem claim10_zero_budget_witness :
    ∃ g, (distribute_budget wSt 0).2 = Except.ok g ∧
      ∀ r ∈ g, r.daily_budget = 0 ∧ r.target_receipts = 0 ∧ r.target_items = 0 :=
  claim10_zero_budget wSt wPd (forecastBase 0 100 3 3) rfl w_forecast_eq
    (by rw [w_sum]; norm_num) (by decide)

/-! ## Claim C9 -/

/-- C9: the closed-day set never influences the forecasting output — for
any two closed-day sets (out-of-range integers included) the numeric
results of `generate_forecast` and `distribute_budget` coincide. -/
theorem claim9_closed_days_noninterference (s : DashState) (d1 d2 : List ℤ)
    (y : Option ℤ) (b : ℚ) :
    generate_forecast (set_closed_days s d1) y = generate_forecast (set_closed_days s d2) y ∧
    (distribute_budget (set_closed_days s d1) b).2
      = (distribute_budget (set_closed_days s d2) b).2 := by
  constructor
  · rfl
  · rcases hs : s.processed_data with _ | pd
    · simp only [distribute_budget, set_closed_days, hs]
    · rcases hc : generate_forecast_core pd s.special_dates none with e | f <;>
        simp only [distribute_budget, set_closed_days, hs, hc]

/-! ## Claim C6 -/

/-- C6 (amended): `distribute_budget` does NOT guard the division by the
historical mean — it succeeds whatever that mean is (zero included), and
`target_receipts` is the unguarded quotient
`daily_budget / mean(total_sales) * avg_receipts`. -/
theorem claim6_no_guard (s : DashState) (pd : List PRow) (f : List FRow) (b : ℚ)
    (hpd : s.processed_data = some pd)
    (hcore : generate_forecast_core pd s.special_dates none = Except.ok f) :
    exceptOk (distribute_budget s b).2 = true ∧
    ∀ g, (distribute_budget s b).2 = Except.ok g →
      ∀ r ∈ g, r.target_receipts
        = r.daily_budget / mean (pd.map PRow.total_sales)
          * mean (((sortZ (pd.map PRow.date)).dedup).map (fun d =>
              mean ((pd.filter (fun r2 => decide (r2.date = d))).map PRow.num_receipts))) := by
  rw [distribute_budget_eq s pd f b hpd hcore]
  refine ⟨rfl, ?_⟩
  intro g hg r hr
  injection hg with h
  subst h
  obtain ⟨r0, _, rfl⟩ := List.mem_map.mp hr
  rfl

/-- Counterexample to C6 as stated: the historical mean is zero and yet
`distribute_budget` succeeds — no ConfigurationError path exists (the
Python original divides by zero in floating point, producing NaN/inf
targets, and raises nothing). -/
theorem claim6_counterexample :
    mean (c6Pd.map PRow.total_sales) = 0 ∧
    exceptOk (distribute_budget c6St 100).2 = true := by
  constructor
  · decide
  · decide

set_option maxRecDepth 4000 in
/-- Witness for the amended C6, at the very state whose historical mean is
zero. -/
theorem claim6_no_guard_witness :
    exceptOk (distribute_budget c6St 100).2 = true :=
  (claim6_no_guard c6St c6Pd (exceptGet [] (generate_forecast_core c6Pd [] none)) 100
    rfl (by rfl)).1

/-! ## Claim C2 -/

/-- `getD` of a mapped range at an index below the bound. -/
theorem getD_map_range (m k : ℕ) (f : ℕ → ℚ) (h : k < m) :
    ((List.range m).map f).getD k 0 = f k := by
  rw [List.getD_eq_getElem?_getD, List.getElem?_map, List.getElem?_range h]
  rfl

/-- The forecast table a successful `generate_forecast` returns, in
closed form. -/
theorem generate_forecast_eq (s : DashState) (pd : List PRow) (y : Option ℤ)
    (si : ℚ × ℚ)
    (hpd : s.processed_data = some pd)
    (hsi : linregress ((year_filter pd y).map PRow.total_sales) = some si) :
    generate_forecast s y = Except.ok
      (apply_special_dates (special_patterns pd s.special_dates) s.special_dates
        (apply_weekly_patterns (weekly_patterns pd)
          (forecastBase si.1 si.2 (year_filter pd y).length
            (dateMax ((year_filter pd y).map PRow.date) + 1)))) := by
  unfold generate_forecast
  rw [hpd]
  unfold generate_forecast_core
  simp only [hsi]
  rfl

/-- C2 (amended): a successful forecast — guaranteed whenever the
(possibly year-filtered) trend subset has at least two rows — has exactly
365 rows whose dates are consecutive calendar days starting the day after
the maximum date of the SELECTED subset (so with a `baseYear` filter the
start date follows the filtered subset's max date, not the full
table's). -/
theorem claim2_consecutive_dates (s : DashState) (pd : List PRow) (y : Option ℤ)
    (hpd : s.processed_data = some pd)
    (h2 : 2 ≤ (year_filter pd y).length) :
    ∃ f, generate_forecast s y = Except.ok f ∧ f.length = 365 ∧
      f.map FRow.date = (List.range 365).map
        (fun (k : ℕ) => dateMax ((year_filter pd y).map PRow.date) + 1 + (k : ℤ)) := by
  obtain ⟨si, hsi⟩ := linregress_of_two_le ((year_filter pd y).map PRow.total_sales)
    (by rw [List.length_map]; exact h2)
  refine ⟨_, generate_forecast_eq s pd y si hpd hsi, ?_, ?_⟩
  · rw [← List.length_map _ FRow.date, apply_special_dates_map_date,
      apply_weekly_patterns_map_date, forecastBase_map_date, List.length_map,
      List.length_range]
  · rw [apply_special_dates_map_date, apply_weekly_patterns_map_date, forecastBase_map_date]

set_option maxRecDepth 4000 in
/-- Counterexample to C2 as stated: with `baseYear = 1970` the forecast
starts on day 2 — the day after the max date of the FILTERED subset — not
on day 367, the day after the max date of the full processed table. -/
theorem claim2_counterexample :
    (exceptGet [] (generate_forecast c2St (some 1970))).head?.map FRow.date = some 2 ∧
    dateMax (c2Pd.map PRow.date) + 1 = 367 ∧ (2 : ℤ) ≠ 367 := by
  refine ⟨by decide, by decide, by decide⟩

/-- Witness for the amended C2 on `wSt` with `baseYear = 1970`. -/
theorem claim2_consecutive_dates_witness :
    ∃ f, generate_forecast wSt (some 1970) = Except.ok f ∧ f.length = 365 ∧
      f.map FRow.date = (List.range 365).map
        (fun (k : ℕ) => dateMax ((year_filter wPd (some 1970)).map PRow.date) + 1 + (k : ℤ)) :=
  claim2_consecutive_dates wSt wPd (some 1970) rfl (by decide)

/-! ## Claim C3 -/

/-- C3 (amended): whenever the selected subset has at least TWO rows, the
fitted parameters exist, they minimise the residual sum of squares of
`total_sales` against the 0-based row position (a genuine ordinary
least-squares fit), and the pre-adjustment forecast value at horizon
position `k` is `slope * (N + k) + intercept` with `N` the subset size.
(On a one-row subset — allowed by the claim as stated — no OLS fit exists
and the source produces no finite forecast.) -/
theorem claim3_ols_trend (s : DashState) (pd : List PRow) (y : Option ℤ)
    (hpd : s.processed_data = some pd)
    (h2 : 2 ≤ (year_filter pd y).length) :
    ∃ sl ic, linregress ((year_filter pd y).map PRow.total_sales) = some (sl, ic) ∧
      (∀ a b : ℚ, sse ((year_filter pd y).map PRow.total_sales) sl ic
        ≤ sse ((year_filter pd y).map PRow.total_sales) a b) ∧
      generate_forecast s y = Except.ok
        (apply_special_dates (special_patterns pd s.special_dates) s.special_dates
          (apply_weekly_patterns (weekly_patterns pd)
            (forecastBase sl ic (year_filter pd y).length
              (dateMax ((year_filter pd y).map PRow.date) + 1)))) ∧
      ∀ k, k < 365 →
        ((forecastBase sl ic (year_filter pd y).length
            (dateMax ((year_filter pd y).map PRow.date) + 1)).map FRow.sales_forecast).getD k 0
          = sl * (((year_filter pd y).length : ℚ) + (k : ℚ)) + ic := by
  have hlen : 2 ≤ ((year_filter pd y).map PRow.total_sales).length := by
    rw [List.length_map]; exact h2
  obtain ⟨⟨sl, ic⟩, hsi⟩ := linregress_of_two_le ((year_filter pd y).map PRow.total_sales) hlen
  refine ⟨sl, ic, hsi, fun a b => linregress_ols _ hlen sl ic hsi a b,
    generate_forecast_eq s pd y (sl, ic) hpd hsi, ?_⟩
  intro k hk
  rw [forecastBase_map_sales, getD_map_range _ _ _ hk]

set_option maxRecDepth 4000 in
/-- Counterexample to C3 as stated: the 1970 subset is non-empty (one
row), yet no ordinary least-squares line exists on it — all x values
coincide, the OLS denominator is zero (scipy: NaN slope / ValueError) —
and `generate_forecast` produces no finite forecast, against the claim's
"for every non-empty subset". -/
theorem claim3_counterexample :
    (year_filter c3Pd (some 1970)).length = 1 ∧
    generate_forecast c3St (some 1970) = Except.error FErr.degenerateFit := by
  refine ⟨by decide, by rfl⟩

/-- Witness for the amended C3 on `wSt` with `baseYear = 1970`. -/
theorem claim3_ols_trend_witness :
    ∃ sl ic, linregress ((year_filter wPd (some 1970)).map PRow.total_sales) = some (sl, ic) ∧
      (∀ a b : ℚ, sse ((year_filter wPd (some 1970)).map PRow.total_sales) sl ic
        ≤ sse ((year_filter wPd (some 1970)).map PRow.total_sales) a b) ∧
      generate_forecast wSt (some 1970) = Except.ok
        (apply_special_dates (special_patterns wPd wSt.special_dates) wSt.special_dates
          (apply_weekly_patterns (weekly_patterns wPd)
            (forecastBase sl ic (year_filter wPd (some 1970)).length
              (dateMax ((year_filter wPd (some 1970)).map PRow.date) + 1)))) ∧
      ∀ k, k < 365 →
        ((forecastBase sl ic (year_filter wPd (some 1970)).length
            (dateMax ((year_filter wPd (some 1970)).map PRow.date) + 1)).map
              FRow.sales_forecast).getD k 0
          = sl * (((year_filter wPd (some 1970)).length : ℚ) + (k : ℚ)) + ic :=
  claim3_ols_trend wSt wPd (some 1970) rfl (by decide)

/-! ## Claims C7 and C8: `load_data` state handling -/

/-- A successful cell conversion never touches the date field. -/
theorem convCellAt_date (i : ℕ) (r r2 : PRow) (h : convCellAt i r = some r2) :
    r2.date = r.date := by
  unfold convCellAt at h
  rcases hc : r.pct.getD i (Cell.val 0) with s | q <;> rw [hc] at h
  · obtain ⟨q2, _, rfl⟩ := Option.map_eq_some'.mp h
    rfl
  · cases h
    rfl

/-- A successful column conversion converts the rows pointwise. -/
theorem convCol_forall₂ (i : ℕ) : ∀ (t t2 : List PRow), convCol i t = some t2 →
    List.Forall₂ (fun r r2 => convCellAt i r = some r2) t t2 := by
  intro t
  induction t with
  | nil =>
    intro t2 h
    cases h
    exact List.Forall₂.nil
  | cons r rs ih =>
    intro t2 h
    unfold convCol at h
    rcases hc : convCellAt i r with _ | r2 <;> rw [hc] at h
    · exact absurd h (by simp)
    · obtain ⟨t2t, ht, rfl⟩ := Option.map_eq_some'.mp h
      exact List.Forall₂.cons hc (ih t2t ht)

/-- Transport a mapped column along a pointwise relation. -/
theorem forall₂_map_eq {α : Type} {R : PRow → PRow → Prop} (g : PRow → α)
    (hg : ∀ r r2, R r r2 → g r2 = g r) :
    ∀ (t t2 : List PRow), List.Forall₂ R t t2 → t2.map g = t.map g := by
  intro t t2 h
  induction h with
  | nil => rfl
  | cons hr _ ih => simp [ih, hg _ _ hr]

/-- Column conversion preserves the date column. -/
theorem convCol_map_date (i : ℕ) (t t2 : List PRow) (h : convCol i t = some t2) :
    t2.map PRow.date = t.map PRow.date :=
  forall₂_map_eq _ (fun r r2 hr => convCellAt_date i r r2 hr) t t2 (convCol_forall₂ i t t2 h)

/-- The whole conversion loop preserves the date column, also on the
partially converted table a failure leaves behind. -/
theorem runConv_map_date : ∀ (is : List ℕ) (t : List PRow),
    ((runConv is t).1).map PRow.date = t.map PRow.date := by
  intro is
  induction is with
  | nil => intro t; rfl
  | cons i is ih =>
    intro t
    unfold runConv
    rcases hc : convCol i t with _ | t2
    · rfl
    · simp only
      exact (ih t2).trans (convCol_map_date i t t2 hc)

/-- C8 (amended): `load_data` carries the input's dates over verbatim —
it neither deduplicates nor validates them, so the uniqueness invariant
holds exactly when the input's dates are distinct — and none of the later
operations modifies the processed table (`calculate_daily_weights` and
`generate_forecast` are read-only by type; the state-returning operations
are listed). -/
theorem claim8_dates_carried_over (s : DashState) (raw : List RawRow) (t : List PRow)
    (ds dd : List ℤ) (b : ℚ)
    (h : (load_data s raw).2 = Except.ok t) :
    t.map PRow.date = raw.map RawRow.data ∧
    (set_closed_days s ds).processed_data = s.processed_data ∧
    (set_special_dates s dd).processed_data = s.processed_data ∧
    (distribute_budget s b).1.processed_data = s.processed_data := by
  refine ⟨?_, rfl, rfl, distribute_budget_state s b⟩
  simp only [load_data] at h
  by_cases hcv : (runConv (List.range 12) (raw.map renameRow)).2
  · rw [if_pos hcv] at h
    injection h with h2
    subst h2
    rw [runConv_map_date, List.map_map]
    exact List.map_congr_left (fun r _ => rfl)
  · rw [if_neg hcv] at h
    exact absurd h (by simp)

set_option maxRecDepth 8000 in
/-- Counterexample to C8 as stated: a table with two rows on the same
date loads successfully and the processed table keeps both — the claimed
uniqueness invariant does not hold after `load_data`. -/
theorem claim8_counterexample :
    exceptOk (load_data initSt c8dupRaw).2 = true ∧
    (exceptGet [] (load_data initSt c8dupRaw).2).map PRow.date = [0, 0] ∧
    ¬ ((exceptGet [] (load_data initSt c8dupRaw).2).map PRow.date).Nodup := by
  refine ⟨by decide, by decide, by decide⟩

set_option maxRecDepth 8000 in
/-- Witness for the amended C8 on a concrete two-row load. -/
theorem claim8_dates_carried_over_witness :
    (exceptGet [] (load_data initSt c8Raw).2).map PRow.date = c8Raw.map RawRow.data ∧
    (set_closed_days initSt [9]).processed_data = initSt.processed_data ∧
    (set_special_dates initSt [5]).processed_data = initSt.processed_data ∧
    (distribute_budget initSt 7).1.processed_data = initSt.processed_data :=
  claim8_dates_carried_over initSt c8Raw _ [9] [5] 7 (by rfl)

/-- C7 (amended): `load_data` always overwrites `processed_data` — the
post-call table depends only on the input, never on the prior state — and
on a parse failure the stored table is the renamed input with the columns
before the failing one converted, NOT the previous table; the call fails
exactly when the conversion loop fails. -/
theorem claim7_eager_overwrite (s1 s2 : DashState) (raw : List RawRow) :
    (load_data s1 raw).1.processed_data = (load_data s2 raw).1.processed_data ∧
    (load_data s1 raw).1.processed_data
      = some (runConv (List.range 12) (raw.map renameRow)).1 ∧
    (exceptOk (load_data s1 raw).2 = false
      ↔ (runConv (List.range 12) (raw.map renameRow)).2 = false) := by
  by_cases hcv : (runConv (List.range 12) (raw.map renameRow)).2 <;>
    simp [load_data, hcv, exceptOk]

set_option maxRecDepth 8000 in
/-- Counterexample to C7 as stated: loading a table whose fourth
percentage value is malformed fails, yet the previously processed table
does not remain — `processed_data` now holds the renamed, partially
converted replacement. -/
theorem claim7_counterexample :
    exceptOk (load_data c7St c7Raw).2 = false ∧
    (load_data c7St c7Raw).1.processed_data ≠ c7St.processed_data := by
  refine ⟨by decide, by decide⟩

/-- Converting one cell succeeds exactly when the cell parses. -/
theorem convCellAt_isSome (i : ℕ) (r : PRow) :
    (convCellAt i r).isSome = cellOk (cellAt i r) := by
  unfold convCellAt cellOk cellAt
  rcases hc : r.pct.getD i (Cell.val 0) with s | q <;> dsimp only
  · cases hp : pctConvert s <;> simp [hp]
  · rfl

/-- A raw cell read back from `getD` lies within the list. -/
theorem cellAt_lt_of_raw (i : ℕ) (r : PRow) (s : String)
    (h : r.pct.getD i (Cell.val 0) = Cell.raw s) : i < r.pct.length := by
  by_contra hlt
  rw [List.getD_eq_default _ _ (Nat.le_of_not_lt hlt)] at h
  cases h

/-- After a successful conversion the converted cell parses trivially. -/
theorem convCellAt_cellOk (i : ℕ) (r r2 : PRow) (h : convCellAt i r = some r2) :
    cellOk (cellAt i r2) = true := by
  unfold convCellAt at h
  rcases hc : r.pct.getD i (Cell.val 0) with s | q <;> rw [hc] at h <;> dsimp only at h
  · obtain ⟨q2, _, rfl⟩ := Option.map_eq_some'.mp h
    have hlt : i < r.pct.length := cellAt_lt_of_raw i r s hc
    have hset : (r.pct.set i (Cell.val q2))[i]? = some (Cell.val q2) :=
      List.getElem?_set_self hlt
    unfold cellOk cellAt
    dsimp only
    rw [List.getD_eq_getElem?_getD, hset]
    rfl
  · cases h
    unfold cellOk cellAt
    rw [hc]

/-- A successful conversion leaves every other column's cell unchanged. -/
theorem convCellAt_cell_other (i : ℕ) (r r2 : PRow) (h : convCellAt i r = some r2)
    (j : ℕ) (hj : j ≠ i) : cellAt j r2 = cellAt j r := by
  unfold convCellAt at h
  rcases hc : r.pct.getD i (Cell.val 0) with s | q <;> rw [hc] at h <;> dsimp only at h
  · obtain ⟨q2, _, rfl⟩ := Option.map_eq_some'.mp h
    have hset : (r.pct.set i (Cell.val q2))[j]? = r.pct[j]? :=
      List.getElem?_set_ne (Ne.symm hj)
    unfold cellAt
    dsimp only
    rw [List.getD_eq_getElem?_getD, hset, List.getD_eq_getElem?_getD]
  · cases h
    rfl

/-- A column conversion succeeds exactly when every cell of the column
parses. -/
theorem convCol_isSome (i : ℕ) : ∀ (t : List PRow),
    (convCol i t).isSome = t.all (fun r => cellOk (cellAt i r)) := by
  intro t
  induction t with
  | nil => rfl
  | cons r rs ih =>
    unfold convCol
    rcases hc : convCellAt i r with _ | r2
    · have hthis := convCellAt_isSome i r
      rw [hc] at hthis
      simp [List.all_cons, ← hthis]
    · have hthis := convCellAt_isSome i r
      rw [hc] at hthis
      rw [List.all_cons, ← hthis, ← ih]
      cases convCol i rs <;> rfl

/-- All-quantification along a successful column conversion. -/
theorem forall₂_all_true {R : PRow → PRow → Prop} (f : PRow → Bool)
    (hf : ∀ r r2, R r r2 → f r2 = true) :
    ∀ (t t2 : List PRow), List.Forall₂ R t t2 → t2.all f = true := by
  intro t t2 h
  induction h with
  | nil => rfl
  | cons hr _ ih => simp [List.all_cons, hf _ _ hr, ih]

/-- Transporting an all-quantification along a pointwise relation. -/
theorem forall₂_all_eq {R : PRow → PRow → Prop} (f g : PRow → Bool)
    (hfg : ∀ r r2, R r r2 → f r2 = g r) :
    ∀ (t t2 : List PRow), List.Forall₂ R t t2 → t2.all f = t.all g := by
  intro t t2 h
  induction h with
  | nil => rfl
  | cons hr _ ih => simp [List.all_cons, hfg _ _ hr, ih]

/-- The conversion loop succeeds exactly when every listed column's every
cell parses. -/
theorem runConv_true_iff : ∀ (is : List ℕ) (t : List PRow),
    (runConv is t).2 = true
      ↔ ∀ i ∈ is, t.all (fun r => cellOk (cellAt i r)) = true := by
  intro is
  induction is with
  | nil =>
    intro t
    simp [runConv]
  | cons i is ih =>
    intro t
    unfold runConv
    rcases hc : convCol i t with _ | t2
    · have hfail : t.all (fun r => cellOk (cellAt i r)) = false := by
        rw [← convCol_isSome, hc]
        rfl
      simp only
      constructor
      · intro h
        cases h
      · intro h
        have := h i (List.mem_cons_self i is)
        rw [hfail] at this
        cases this
    · have hF := convCol_forall₂ i t t2 hc
      have hok : t.all (fun r => cellOk (cellAt i r)) = true := by
        rw [← convCol_isSome, hc]
        rfl
      have htrans : ∀ j, j ≠ i →
          t2.all (fun r => cellOk (cellAt j r)) = t.all (fun r => cellOk (cellAt j r)) :=
        fun j hj => forall₂_all_eq _ _
          (fun r r2 hr => by rw [convCellAt_cell_other i r r2 hr j hj]) t t2 hF
      have hconv : t2.all (fun r => cellOk (cellAt i r)) = true :=
        forall₂_all_true _ (fun r r2 hr => convCellAt_cellOk i r r2 hr) t t2 hF
      simp only
      rw [ih t2]
      constructor
      · intro h j hj
        rcases List.mem_cons.mp hj with rfl | hj2
        · exact hok
        · by_cases hji : j = i
          · subst hji
            exact hok
          · rw [← htrans j hji]
            exact h j hj2
      · intro h j hj
        by_cases hji : j = i
        · subst hji
          exact hconv
        · rw [htrans j hji]
          exact h j (List.mem_cons_of_mem i hj)

/-- The twelve cells of a renamed row are the raw percentage strings. -/
theorem cellAt_renameRow (r : RawRow) (i : ℕ) (h : i < r.pctRaw.length) :
    cellAt i (renameRow r) = Cell.raw (r.pctRaw.getD i "") := by
  unfold cellAt renameRow
  simp only [List.getD_eq_getElem?_getD, List.getElem?_map, List.getElem?_eq_getElem h,
    Option.map_some', Option.getD_some, List.getD_eq_getElem _ _ h]

/-- `cellOk` on a raw cell is float-parsing after stripping. -/
theorem cellOk_raw (s : String) :
    cellOk (Cell.raw s) = (parseFloat (rstripPct s)).isSome := by
  unfold cellOk pctConvert
  dsimp only
  cases hp : parseFloat (rstripPct s) <;> simp [hp]

/-- C5 (amended): loading succeeds exactly when every percentage cell,
after stripping all TRAILING percent signs, parses as a float — a value
with no percent sign at all is accepted, not rejected — and `"12.5%"`
converts to exactly `1/8 = 0.125`. -/
theorem claim5_percentage_parsing (s : DashState) (raw : List RawRow)
    (hlen : ∀ r ∈ raw, r.pctRaw.length = 12) :
    (exceptOk (load_data s raw).2 = true
      ↔ ∀ r ∈ raw, ∀ c ∈ r.pctRaw, (parseFloat (rstripPct c)).isSome = true) ∧
    pctConvert "12.5%" = some (1/8) := by
  refine ⟨?_, by decide⟩
  have hload : exceptOk (load_data s raw).2 = (runConv (List.range 12) (raw.map renameRow)).2 := by
    by_cases hcv : (runConv (List.range 12) (raw.map renameRow)).2 <;>
      simp [load_data, hcv, exceptOk]
  rw [show (exceptOk (load_data s raw).2 = true)
      ↔ ((runConv (List.range 12) (raw.map renameRow)).2 = true) from by rw [hload]]
  rw [runConv_true_iff]
  constructor
  · intro h r hr c hc
    obtain ⟨i, hi, rfl⟩ := List.mem_iff_getElem.mp hc
    have hi12 : i < 12 := by rw [← hlen r hr]; exact hi
    have h2 := h i (List.mem_range.mpr hi12)
    rw [List.all_eq_true] at h2
    have h3 := h2 (renameRow r) (List.mem_map_of_mem renameRow hr)
    rw [cellAt_renameRow r i hi, cellOk_raw, List.getD_eq_getElem _ _ hi] at h3
    exact h3
  · intro h i hi
    rw [List.all_eq_true]
    intro r2 hr2
    obtain ⟨r, hr, rfl⟩ := List.mem_map.mp hr2
    have hi12 : i < r.pctRaw.length := by rw [hlen r hr]; exact List.mem_range.mp hi
    rw [cellAt_renameRow r i hi12, cellOk_raw]
    refine h r hr _ ?_
    rw [List.getD_eq_getElem _ _ hi12]
    exact List.getElem_mem hi12

set_option maxRecDepth 8000 in
/-- Counterexample to C5 as stated: the margin value `"12.5"` is not a
number followed by a trailing percent sign, yet the load succeeds (and
stores `0.125`) — `rstrip('%')` never requires the sign to be present. -/
theorem claim5_counterexample :
    exceptOk (load_data initSt c5Raw).2 = true ∧
    (exceptGet [] (load_data initSt c5Raw).2).map (fun r => cellAt 0 r)
      = [Cell.val (1/8)] := by
  refine ⟨by decide, by decide⟩

/-- Witness for the amended C5 on a concrete well-formed load. -/
theorem claim5_percentage_parsing_witness :
    (exceptOk (load_data initSt c8Raw).2 = true
      ↔ ∀ r ∈ c8Raw, ∀ c ∈ r.pctRaw, (parseFloat (rstripPct c)).isSome = true) ∧
    pctConvert "12.5%" = some (1/8) :=
  claim5_percentage_parsing initSt c8Raw (by decide)

theorem salesAt_nil (d : ℤ) : salesAt [] d = 0 := rfl

theorem salesAt_cons (r : FRow) (t : List FRow) (d : ℤ) :
    salesAt (r :: t) d
      = if r.date = d then r.sales_forecast + salesAt t d else salesAt t d := by
  unfold salesAt
  rw [List.filter_cons]
  by_cases h : r.date = d
  · simp [h]
  · simp [h]

/-- Scaling the rows of one date: the column total shifts by the scaled
minus the original amount on that date. -/
theorem sum_map_scale (m : ℚ) (d : ℤ) : ∀ (t : List FRow),
    ((t.map (fun r => if r.date = d
        then { r with sales_forecast := r.sales_forecast * m } else r)).map
      FRow.sales_forecast).sum
      = (t.map FRow.sales_forecast).sum + salesAt t d * m - salesAt t d := by
  intro t
  induction t with
  | nil => simp [salesAt_nil]
  | cons r rs ih =>
    rw [List.map_cons, List.map_cons, List.sum_cons, List.map_cons, List.sum_cons,
      salesAt_cons, ih]
    by_cases h : r.date = d
    · rw [if_pos h, if_pos h]
      dsimp only
      ring
    · rw [if_neg h, if_neg h]
      ring

/-- Scaling the rows of one date, read back per date. -/
theorem salesAt_map_scale (m : ℚ) (d d2 : ℤ) : ∀ (t : List FRow),
    salesAt (t.map (fun r => if r.date = d
        then { r with sales_forecast := r.sales_forecast * m } else r)) d2
      = if d2 = d then salesAt t d2 * m else salesAt t d2 := by
  intro t
  induction t with
  | nil => by_cases h : d2 = d <;> simp [salesAt_nil, h]
  | cons r rs ih =>
    rw [List.map_cons, salesAt_cons, salesAt_cons, ih]
    by_cases h1 : r.date = d <;> by_cases h2 : r.date = d2
    · have h3 : d2 = d := h2.symm.trans h1
      subst h3
      simp only [if_pos h1, if_pos h2, if_pos rfl, if_true]
      ring
    · simp only [if_pos h1, if_neg h2]
    · have h3 : ¬ (d2 = d) := fun hh => h1 (h2.trans hh)
      simp only [if_neg h1, if_pos h2, if_neg h3]
    · simp only [if_neg h1, if_neg h2]

/-- One special-date step on a date inside the horizon: the column total
afterwards, with the mean taken fresh from the current table. -/
theorem apply_special_date_mem_sum (sp : ℚ) (t : List FRow) (d : ℤ)
    (hd : d ∈ t.map FRow.date) :
    ((apply_special_date sp t d).map FRow.sales_forecast).sum
      = (t.map FRow.sales_forecast).sum
        + salesAt t d * (sp / mean (t.map FRow.sales_forecast)) - salesAt t d := by
  unfold apply_special_date
  rw [if_pos hd]
  exact sum_map_scale _ _ t

/-- One special-date step, read back per date: only the stepped date is
rescaled, by `sp` over the current mean. -/
theorem apply_special_date_salesAt (sp : ℚ) (t : List FRow) (d d2 : ℤ)
    (hd : d ∈ t.map FRow.date) :
    salesAt (apply_special_date sp t d) d2
      = if d2 = d then salesAt t d2 * (sp / mean (t.map FRow.sales_forecast))
        else salesAt t d2 := by
  unfold apply_special_date
  rw [if_pos hd]
  exact salesAt_map_scale _ _ _ t

/-- A special date outside the horizon leaves the table untouched. -/
theorem apply_special_date_not_mem (sp : ℚ) (t : List FRow) (d : ℤ)
    (hd : d ∉ t.map FRow.date) : apply_special_date sp t d = t := by
  unfold apply_special_date
  rw [if_neg hd]

/-- A special-date step preserves the row count. -/
theorem apply_special_date_length (sp : ℚ) (t : List FRow) (d : ℤ) :
    (apply_special_date sp t d).length = t.length := by
  rw [← List.length_map _ FRow.date, apply_special_date_map_date, List.length_map]

/-- The horizon dates are exactly the 365 days from `start`. -/
theorem mem_forecastBase_date (sl ic : ℚ) (n : ℕ) (st d : ℤ) :
    d ∈ (forecastBase sl ic n st).map FRow.date ↔ st ≤ d ∧ d < st + 365 := by
  rw [forecastBase_map_date]
  constructor
  · intro h
    obtain ⟨k, hk, rfl⟩ := List.mem_map.mp h
    have := List.mem_range.mp hk
    omega
  · intro h
    refine List.mem_map.mpr ⟨(d - st).toNat, List.mem_range.mpr ?_, ?_⟩ <;> omega

/-- Filtering commutes with mapping over a range. -/
theorem filter_map_range_list (g : ℕ → FRow) (p : FRow → Bool) : ∀ (m : ℕ),
    ((List.range m).map g).filter p = ((List.range m).filter (fun j => p (g j))).map g := by
  intro m
  induction m with
  | zero => rfl
  | succ m2 ih =>
    rw [List.range_succ, List.map_append, List.filter_append, ih, List.filter_append,
      List.map_append]
    congr 1
    by_cases hp : p (g m2) <;> simp [List.filter_cons, hp]

/-- Filtering a range for one index. -/
theorem range_filter_eq (m k : ℕ) :
    (List.range m).filter (fun j => decide (j = k)) = if k < m then [k] else [] := by
  induction m with
  | zero => simp
  | succ m2 ih =>
    rw [List.range_succ, List.filter_append, ih]
    by_cases h1 : k < m2
    · have h2 : k < m2 + 1 := by omega
      have h3 : ¬ (m2 = k) := by omega
      simp [List.filter_cons, h1, h2, h3]
    · by_cases h4 : k = m2
      · subst h4
        have h5 : k < k + 1 := by omega
        simp [List.filter_cons, h1, h5]
      · have h5 : ¬ (k < m2 + 1) := by omega
        have h6 : ¬ (m2 = k) := fun hh => h4 hh.symm
        simp [List.filter_cons, h1, h5, h6]

/-- The value the candidate forecast carries on day `start + k`. -/
theorem salesAt_forecastBase (sl ic : ℚ) (n : ℕ) (st : ℤ) (k : ℕ) (hk : k < 365) :
    salesAt (forecastBase sl ic n st) (st + (k : ℤ))
      = sl * ((n : ℚ) + (k : ℚ)) + ic := by
  unfold salesAt forecastBase
  rw [filter_map_range_list]
  have hcongr : ((List.range 365).filter
      (fun j => decide ((forecastRow sl ic n st j).date = st + (k : ℤ))))
      = (List.range 365).filter (fun j => decide (j = k)) := by
    refine List.filter_congr (fun j _ => ?_)
    show decide (st + (j : ℤ) = st + (k : ℤ)) = decide (j = k)
    by_cases h : j = k
    · subst h
      simp
    · have h2 : ¬ (st + (j : ℤ) = st + (k : ℤ)) := by
        intro hh
        exact h (by exact_mod_cast add_left_cancel hh)
      simp [h, h2]
  rw [hcongr, range_filter_eq, if_pos hk]
  simp [forecastRow]

/-- The table of `generate_forecast_chron` on a successful fit, in closed
form. -/
theorem generate_forecast_chron_eq (s : DashState) (pd : List PRow) (y : Option ℤ)
    (si : ℚ × ℚ)
    (hpd : s.processed_data = some pd)
    (hsi : linregress ((year_filter pd y).map PRow.total_sales) = some si) :
    generate_forecast_chron s y = Except.ok
      (apply_special_dates (special_patterns pd s.special_dates) (sortZ s.special_dates)
        (apply_weekly_patterns (weekly_patterns pd)
          (forecastBase si.1 si.2 (year_filter pd y).length
            (dateMax ((year_filter pd y).map PRow.date) + 1)))) := by
  unfold generate_forecast_chron
  rw [hpd]
  simp only [hsi]
  rfl

/-- The stored-order fold of the source on `c4St`. -/
theorem c4_forecast_eq : generate_forecast c4St none
    = Except.ok (apply_special_dates 100 [2572, 361, 2565] c4Base) := by
  have hsi : linregress ((year_filter c4Pd none).map PRow.total_sales)
      = some (20, 170) := by decide
  rw [generate_forecast_eq c4St c4Pd none (20, 170) rfl hsi]
  have hlen : (year_filter c4Pd none).length = 4 := by decide
  have hmax : dateMax ((year_filter c4Pd none).map PRow.date) + 1 = 2555 := by decide
  rw [hlen, hmax]
  rw [apply_weekly_patterns_const (weekly_patterns c4Pd) 200 (by decide) (by decide)
    (by norm_num) (forecastBase 20 170 4 2555)]
  rw [show special_patterns c4Pd c4St.special_dates = 100 from by decide]
  rfl

/-- The chronological fold the spec prescribes, on the same state. -/
theorem c4_chron_eq : generate_forecast_chron c4St none
    = Except.ok (apply_special_dates 100 [361, 2565, 2572] c4Base) := by
  have hsi : linregress ((year_filter c4Pd none).map PRow.total_sales)
      = some (20, 170) := by decide
  rw [generate_forecast_chron_eq c4St c4Pd none (20, 170) rfl hsi]
  have hlen : (year_filter c4Pd none).length = 4 := by decide
  have hmax : dateMax ((year_filter c4Pd none).map PRow.date) + 1 = 2555 := by decide
  rw [hlen, hmax]
  rw [apply_weekly_patterns_const (weekly_patterns c4Pd) 200 (by decide) (by decide)
    (by norm_num) (forecastBase 20 170 4 2555)]
  rw [show special_patterns c4Pd c4St.special_dates = 100 from by decide]
  rfl

/-- Day totals and means of the C4 trend table. -/
theorem c4Base_sum : (c4Base.map FRow.sales_forecast).sum = 1419850 := by
  unfold c4Base
  rw [forecastBase_map_sales, sum_range_affine]
  norm_num

theorem c4Base_length : c4Base.length = 365 := by
  rw [← List.length_map _ FRow.date]
  unfold c4Base
  rw [forecastBase_map_date, List.length_map, List.length_range]

theorem c4Base_mean : mean (c4Base.map FRow.sales_forecast) = 3890 := by
  unfold mean
  rw [c4Base_sum, List.length_map, c4Base_length]
  norm_num

theorem c4Base_mem_2565 : (2565 : ℤ) ∈ c4Base.map FRow.date := by
  unfold c4Base
  rw [mem_forecastBase_date]
  omega

theorem c4Base_mem_2572 : (2572 : ℤ) ∈ c4Base.map FRow.date := by
  unfold c4Base
  rw [mem_forecastBase_date]
  omega

theorem c4Base_not_mem_361 : (361 : ℤ) ∉ c4Base.map FRow.date := by
  unfold c4Base
  rw [mem_forecastBase_date]
  omega

theorem c4Base_at_2565 : salesAt c4Base 2565 = 450 := by
  have h := salesAt_forecastBase 20 170 4 2555 10 (by norm_num)
  norm_num at h
  unfold c4Base
  exact h

theorem c4Base_at_2572 : salesAt c4Base 2572 = 590 := by
  have h := salesAt_forecastBase 20 170 4 2555 17 (by norm_num)
  norm_num at h
  unfold c4Base
  exact h

/-- Counterexample to C4 as stated: folding the special dates in the
set's iteration order (2572, 361, 2565) and folding them chronologically
(361, 2565, 2572) give different forecasts on `c4St` — the day-2565 value
is `450·100/mean₁` in the first and `450·100/3890` in the second, and the
mean has shifted in between — so the source's fold is not the
chronological fold the claim describes. -/
theorem claim4_counterexample :
    generate_forecast c4St none ≠ generate_forecast_chron c4St none := by
  intro hEq
  rw [c4_forecast_eq, c4_chron_eq] at hEq
  injection hEq with hT
  have hv := congrArg (fun t => salesAt t 2565) hT
  dsimp only at hv
  -- reduce both folds to nested steps
  simp only [apply_special_dates, List.foldl_cons, List.foldl_nil] at hv
  -- the stored-order side
  have s1mem : (361 : ℤ) ∉ (apply_special_date 100 c4Base 2572).map FRow.date := by
    rw [apply_special_date_map_date]
    exact c4Base_not_mem_361
  have s2mem : (2565 : ℤ) ∈ (apply_special_date 100 c4Base 2572).map FRow.date := by
    rw [apply_special_date_map_date]
    exact c4Base_mem_2565
  rw [apply_special_date_not_mem 100 _ 361 s1mem] at hv
  rw [apply_special_date_salesAt 100 _ 2565 2565 s2mem] at hv
  rw [if_pos rfl] at hv
  rw [apply_special_date_salesAt 100 c4Base 2572 2565 c4Base_mem_2572] at hv
  rw [if_neg (by norm_num)] at hv
  rw [c4Base_at_2565] at hv
  have hmean1 : mean ((apply_special_date 100 c4Base 2572).map FRow.sales_forecast)
      = (1419850 + 590 * (100 / 3890) - 590) / 365 := by
    unfold mean
    rw [apply_special_date_mem_sum 100 c4Base 2572 c4Base_mem_2572, c4Base_sum,
      c4Base_at_2572, c4Base_mean, List.length_map, apply_special_date_length,
      c4Base_length]
    norm_num
  rw [hmean1] at hv
  -- the chronological side
  rw [apply_special_date_not_mem 100 c4Base 361 c4Base_not_mem_361] at hv
  have u2mem : (2572 : ℤ) ∈ (apply_special_date 100 c4Base 2565).map FRow.date := by
    rw [apply_special_date_map_date]
    exact c4Base_mem_2572
  rw [apply_special_date_salesAt 100 _ 2572 2565 u2mem] at hv
  rw [if_neg (by norm_num)] at hv
  rw [apply_special_date_salesAt 100 c4Base 2565 2565 c4Base_mem_2565] at hv
  rw [if_pos rfl, c4Base_at_2565, c4Base_mean] at hv
  norm_num at hv

/-- C4 (amended): the special-date adjustment is a sequential fold over
the stored special dates in the SET'S ITERATION ORDER (not necessarily
chronological): a successful forecast is the fold of `apply_special_date`
over `special_dates`, started from the weekly-adjusted trend table; each
step multiplies the matched day's (possibly already weekly-adjusted)
value by `SpecialPattern / mean of all 365 current values`, the divisor
recomputed fresh from the table as it stands at that step, and leaves the
table unchanged when the date lies outside the horizon. -/
theorem claim4_sequential_fold (s : DashState) (pd : List PRow) (si : ℚ × ℚ)
    (hpd : s.processed_data = some pd)
    (hsi : linregress (pd.map PRow.total_sales) = some si) :
    (generate_forecast s none = Except.ok
      (List.foldl (apply_special_date (special_patterns pd s.special_dates))
        (apply_weekly_patterns (weekly_patterns pd)
          (forecastBase si.1 si.2 pd.length (dateMax (pd.map PRow.date) + 1)))
        s.special_dates)) ∧
    (∀ (sp : ℚ) (t : List FRow) (d : ℤ), d ∈ t.map FRow.date →
      (apply_special_date sp t d).map FRow.sales_forecast
        = t.map (fun r => if r.date = d
            then r.sales_forecast * (sp / mean (t.map FRow.sales_forecast))
            else r.sales_forecast)) ∧
    (∀ (sp : ℚ) (t : List FRow) (d : ℤ), d ∉ t.map FRow.date →
      apply_special_date sp t d = t) := by
  refine ⟨generate_forecast_eq s pd none si hpd hsi, ?_, apply_special_date_not_mem⟩
  intro sp t d hd
  unfold apply_special_date
  rw [if_pos hd, List.map_map]
  refine List.map_congr_left (fun r _ => ?_)
  by_cases h : r.date = d
  · simp only [Function.comp, if_pos h]
  · simp only [Function.comp, if_neg h]

/-- Witness for the amended C4 on the concrete state `c4St`. -/
theorem claim4_sequential_fold_witness :
    (generate_forecast c4St none = Except.ok
      (List.foldl (apply_special_date (special_patterns c4Pd c4St.special_dates))
        (apply_weekly_patterns (weekly_patterns c4Pd)
          (forecastBase (20 : ℚ) (170 : ℚ) c4Pd.length (dateMax (c4Pd.map PRow.date) + 1)))
        c4St.special_dates)) ∧
    (∀ (sp : ℚ) (t : List FRow) (d : ℤ), d ∈ t.map FRow.date →
      (apply_special_date sp t d).map FRow.sales_forecast
        = t.map (fun r => if r.date = d
            then r.sales_forecast * (sp / mean (t.map FRow.sales_forecast))
            else r.sales_forecast)) ∧
    (∀ (sp : ℚ) (t : List FRow) (d : ℤ), d ∉ t.map FRow.date →
      apply_special_date sp t d = t) :=
  claim4_sequential_fold c4St c4Pd (20, 170) rfl (by decide)

end Budgy
